import Mathlib

/-!
Verification development for the nerpda anonymization core.

Shallow embedding of the entity-resolution and format-preserving
anonymization engine: the regex-and-checksum identifier detector
(`ner.py`, class `RegexNER`), the per-type replacement generators
(`pda.py`, class `PDAnonymizer`), the dispatcher and the text splicer
(`ner_anonymizer.py`, class `NERAnonymizer`).

Modelling conventions:
- Python strings are `List Char`; slicing `t[a:b]` is `(t.drop a).take (b - a)`
  (both clamp out-of-range indices the same way for natural indices).
- Randomness (`random.randint` draws, the Faker/pymorphy collaborators) is
  made explicit: each generator takes the realized random draws as extra
  parameters, and theorems quantify over every realization.
- The external morphology/Faker collaborators (excluded from the core by the
  design document) appear as opaque parameters carrying their output.
-/

namespace Nerpda

/-- The character with code `48 + n`: `str(n)` for a decimal digit `n < 10`. -/
def charOfDigit (n : Nat) : Char := Char.ofNat (48 + n)

/-- Embeds `int(c)` for a decimal digit character. -/
def digitVal (c : Char) : Nat := c.toNat - 48

/-- Python `s.isdigit()`: `False` on the empty string, else all characters digits. -/
def pyIsDigit (s : List Char) : Bool := !s.isEmpty && s.all Char.isDigit

/-- Embeds `s.replace(' ', '').replace('-', '')`: drop every space and hyphen. -/
def stripSep (s : List Char) : List Char := s.filter (fun c => !(c == ' ' || c == '-'))

/-- Embeds `re.sub(r'\s', '', s)`: drop every whitespace character. -/
def stripWs (s : List Char) : List Char := s.filter (fun c => !c.isWhitespace)

/-- Embeds `int(s)` for a digit string. -/
def toNatDigits (s : List Char) : Nat := s.foldl (fun a c => 10 * a + digitVal c) 0

/-- Python `not s.strip()`: the string is empty or all whitespace. -/
def isBlank (s : List Char) : Bool := s.all Char.isWhitespace

/-- The literal failure sentinel every generator returns on malformed input. -/
def sentinel : List Char := "Некорректно введены данные".toList

/-! ### ChecksumLibrary (ner.py `RegexNER` validators, pda.py checksum helpers) -/

/-- Doubling adjustment of one Luhn digit: double, subtract 9 when above 9. -/
def luhnAdj (d : Nat) : Nat := if 2 * d > 9 then 2 * d - 9 else 2 * d

/-- The summation loop of `RegexNER.luhn_algorithm`: digit at 0-based left
index `i` of a string of length `L` is doubled exactly when `i % 2 = L % 2`. -/
def luhnTotalGo (L i : Nat) : List Nat → Nat
  | [] => 0
  | d :: ds => (if i % 2 = L % 2 then luhnAdj d else d) + luhnTotalGo L (i + 1) ds

/-- Embeds `RegexNER.luhn_algorithm`: strip spaces/hyphens, require a nonempty digit
string, accept iff the position-weighted digit sum is divisible by 10. -/
def luhn_algorithm (card : List Char) : Bool :=
  let t := stripSep card
  pyIsDigit t && luhnTotalGo t.length 0 (t.map digitVal) % 10 == 0

/-- Embeds `RegexNER.validate_ogrnip`: 15 digits, last digit equals
`int(first 14) % 11 % 10`. -/
def validate_ogrnip (s : List Char) : Bool :=
  if s.length ≠ 15 || !pyIsDigit s then false
  else toNatDigits (s.take 14) % 11 % 10 == digitVal (s.getD 14 '0')

/-- Embeds `PDAnonymizer._calc_inn_control` (identical formula appears inline in
`RegexNER.validate_inn`): weighted digit sum, `% 11 % 10`. -/
def calc_inn_control (digits : List Char) (weights : List Nat) : Nat :=
  ((digits.zip weights).map (fun p => digitVal p.1 * p.2)).sum % 11 % 10

/-- Weights of the 10-digit INN control digit. -/
def innW10 : List Nat := [2, 4, 10, 3, 5, 9, 4, 6, 8]

/-- Weights of the first control digit of a 12-digit INN. -/
def innW12a : List Nat := [7, 2, 4, 10, 3, 5, 9, 4, 6, 8]

/-- Weights of the second control digit of a 12-digit INN. -/
def innW12b : List Nat := [3, 7, 2, 4, 10, 3, 5, 9, 4, 6, 8]

/-- Embeds `RegexNER.validate_inn`: strip separators; 10-digit strings use one
control digit, 12-digit strings use two; all other lengths are invalid. -/
def validate_inn (inn : List Char) : Bool :=
  let s := stripSep inn
  if !pyIsDigit s then false
  else if s.length = 10 then
    calc_inn_control (s.take 9) innW10 == digitVal (s.getD 9 '0')
  else if s.length = 12 then
    (calc_inn_control (s.take 10) innW12a == digitVal (s.getD 10 '0')) &&
    (calc_inn_control (s.take 11) innW12b == digitVal (s.getD 11 '0'))
  else false

/-- Embeds `RegexNER.validate_passport`: strip separators, require 10 digits. -/
def validate_passport (s : List Char) : Bool :=
  let p := stripSep s
  pyIsDigit p && p.length == 10

/-- The alternating sum of `PDAnonymizer._luhn_checksum`: when the flag is
true the current digit is doubled (with the above-9 adjustment). -/
def parSum : Bool → List Nat → Nat
  | _, [] => 0
  | b, d :: ds => (if b then luhnAdj d else d) + parSum (!b) ds

/-- Embeds `PDAnonymizer._luhn_checksum`: iterate over the reversed digit string,
double at even 0-based reversed index, return `(10 - s % 10) % 10`. -/
def luhn_checksum (digits : List Char) : Nat :=
  (10 - parSum true (digits.reverse.map digitVal) % 10) % 10

/-! ### FormatPreservingGenerator (pda.py `PDAnonymizer`) -/

/-- The character class `[\d@#$%^&*()_+=\[\]{}|;:",.<>?/\\]` rejected by the
name/surname validation (`\x7b`/`\x7d` are the brace characters). -/
def forbiddenNameChar (c : Char) : Bool :=
  c.isDigit || ("@#$%^&*()_+=[]\x7b\x7d|;:\",.<>?/\\".toList).contains c

/-- Python `str.capitalize`: first character upper-cased, rest lower-cased
(ASCII case mapping; the Cyrillic case mapping is irrelevant to the
properties proved here, which concern the validation/sentinel paths). -/
def pyCapitalize : List Char → List Char
  | [] => []
  | c :: cs => c.toUpper :: cs.map Char.toLower

/-- Embeds `PDAnonymizer.anonymize_name`. `drawn` is the output of the external
Faker draw followed by pymorphy inflection (external collaborators). -/
def anonymize_name (name : List Char) (drawn : List Char) : List Char :=
  if isBlank name then sentinel
  else if name.any forbiddenNameChar then sentinel
  else pyCapitalize drawn

/-- Embeds `PDAnonymizer.anonymize_last_name`: same validation as `anonymize_name`. -/
def anonymize_last_name (lastName : List Char) (drawn : List Char) : List Char :=
  if isBlank lastName then sentinel
  else if lastName.any forbiddenNameChar then sentinel
  else pyCapitalize drawn

/-- Embeds `PDAnonymizer.anonymize_email`: split at the first `@`, keep the domain,
substitute the externally generated local part. -/
def anonymize_email (email : List Char) (newLocal : List Char) : List Char :=
  if isBlank email then sentinel
  else if !email.contains '@' then sentinel
  else newLocal ++ '@' :: (email.dropWhile (fun c => c ≠ '@')).drop 1

/-- Embeds `PDAnonymizer.anonymize_inn`: regenerate all digits with a fresh valid
control suffix; `rnd` is the stream of `random.randint(0, 9)` draws. -/
def anonymize_inn (inn : List Char) (rnd : List Nat) : List Char :=
  if !pyIsDigit inn then sentinel
  else if inn.length = 10 then
    let base := (rnd.take 9).map charOfDigit
    base ++ [charOfDigit (calc_inn_control base innW10)]
  else if inn.length = 12 then
    let base := (rnd.take 10).map charOfDigit
    let c1 := charOfDigit (calc_inn_control (base.take 10) innW12a)
    let c2 := charOfDigit (calc_inn_control (base.take 11 ++ [c1]) innW12b)
    base.take 10 ++ [c1] ++ [c2]
  else sentinel

/-- The character class `[\d\+\-\(\)\s]` accepted by the phone validation. -/
def phoneChar (c : Char) : Bool :=
  c.isDigit || c == '+' || c == '-' || c == '(' || c == ')' || c.isWhitespace

/-- The rewrite loop of `anonymize_phone`: walk the string, replace each
digit by the next pool digit, keep the original digit once the pool is
exhausted, copy non-digits unchanged. -/
def replaceDigitsKeep : List Char → List Char → List Char
  | [], _ => []
  | c :: cs, pool =>
    if c.isDigit then
      match pool with
      | [] => c :: replaceDigitsKeep cs []
      | d :: ps => d :: replaceDigitsKeep cs ps
    else c :: replaceDigitsKeep cs pool

/-- Embeds `PDAnonymizer.anonymize_phone`: keep the first 4 digits, regenerate the
rest, preserve the original character skeleton. -/
def anonymize_phone (phone : List Char) (rnd : List Nat) : List Char :=
  if isBlank phone then sentinel
  else if !(!phone.isEmpty && phone.all phoneChar) then sentinel
  else
    let digits := phone.filter Char.isDigit
    if digits.length < 7 then sentinel
    else
      let preserved := digits.take 4
      let newDigits := (rnd.take (digits.length - 4)).map charOfDigit
      replaceDigitsKeep phone (preserved ++ newDigits)

/-- Consume exactly `n` digit characters, returning the rest of the string. -/
def eatDigits : Nat → List Char → Option (List Char)
  | 0, s => some s
  | _ + 1, [] => none
  | n + 1, c :: s => if c.isDigit then eatDigits n s else none

/-- Embeds `\s?`: consume at most one whitespace character. -/
def optWs : List Char → List Char
  | [] => []
  | c :: s => if c.isWhitespace then s else c :: s

/-- Embeds `re.fullmatch(r'(\d{2})\s?(\d{2})\s?(\d{6})', s)` of `anonymize_passport`. -/
def passportFullShape (s : List Char) : Bool :=
  match eatDigits 2 s with
  | none => false
  | some s1 =>
    match eatDigits 2 (optWs s1) with
    | none => false
    | some s2 =>
      match eatDigits 6 (optWs s2) with
      | none => false
      | some s3 => s3.isEmpty

/-- Embeds `PDAnonymizer.anonymize_passport`: on shape match, emit a fresh 4-digit
series and 6-digit number in the canonical `DD DD DDDDDD` spacing. -/
def anonymize_passport (passport : List Char) (rnd : List Nat) : List Char :=
  if !passportFullShape passport then sentinel
  else
    ((rnd.take 2).map charOfDigit) ++ ' ' :: ((rnd.drop 2).take 2).map charOfDigit
      ++ ' ' :: ((rnd.drop 4).take 6).map charOfDigit

/-- The reinsertion loop of `anonymize_card`: walk the original string; at
each digit position consume the next new digit (`none` models the
`IndexError` of running out, caught into the sentinel); copy non-digits. -/
def reinsertDigits : List Char → List Char → Option (List Char)
  | [], _ => some []
  | c :: cs, ds =>
    if c.isDigit then
      match ds with
      | [] => none
      | d :: ds' => (reinsertDigits cs ds').map (d :: ·)
    else (reinsertDigits cs ds).map (c :: ·)

/-- Embeds `PDAnonymizer.anonymize_card`: for 13–19 digits, regenerate `len - 1`
digits, append the Luhn check digit, and re-insert the new digit string
into the original character skeleton. -/
def anonymize_card (card : List Char) (rnd : List Nat) : List Char :=
  let digits := card.filter Char.isDigit
  if !(13 ≤ digits.length ∧ digits.length ≤ 19) then sentinel
  else
    let body := (rnd.take (digits.length - 1)).map charOfDigit
    let check := charOfDigit (luhn_checksum body)
    let newDigits := body ++ [check]
    match reinsertDigits card newDigits with
    | none => sentinel
    | some r => r

/-- Embeds `PDAnonymizer.anonymize_ogrnip`: for a 15-digit input, regenerate a
14-digit base and append `int(base) % 13 % 10`. -/
def anonymize_ogrnip (ogrnip : List Char) (rnd : List Nat) : List Char :=
  if !pyIsDigit ogrnip || ogrnip.length ≠ 15 then sentinel
  else
    let base := (rnd.take 14).map charOfDigit
    base ++ [charOfDigit (toNatDigits base % 13 % 10)]

/-- Embeds `s.split('.')`. -/
def splitDot : List Char → List (List Char)
  | [] => [[]]
  | c :: rest =>
    if c = '.' then [] :: splitDot rest
    else
      match splitDot rest with
      | [] => [[c]]
      | g :: gs => (c :: g) :: gs

/-- Embeds `'.'.join(groups)`. -/
def joinDots : List (List Char) → List Char
  | [] => []
  | [g] => g
  | g :: gs => g ++ '.' :: joinDots gs

/-- Decimal rendering `str(n)`. -/
def natToChars (n : Nat) : List Char := (Nat.repr n).toList

/-- Embeds `PDAnonymizer.anonymize_ip`: require 4 dot-separated parts, emit 4 fresh
octets (realized `random.randint(1, 254)` draws) joined by dots. -/
def anonymize_ip (ip : List Char) (octets : List Nat) : List Char :=
  if (splitDot ip).length ≠ 4 then sentinel
  else joinDots ((octets.take 4).map natToChars)

/-- Embeds `[IVXLCDM]` under `re.IGNORECASE`. -/
def romanChar (c : Char) : Bool := ("IVXLCDMivxlcdm".toList).contains c

/-- Embeds `[А-ЯЁ]` under `re.IGNORECASE`. -/
def cyrLetter (c : Char) : Bool :=
  ('А' ≤ c && c ≤ 'Я') || c == 'Ё' || ('а' ≤ c && c ≤ 'я') || c == 'ё'

/-- Embeds `re.fullmatch(r'([IVXLCDM]+)-([А-ЯЁ]{2})\s*№(\d{6})', s, re.IGNORECASE)`. -/
def birthCertShape (s : List Char) : Bool :=
  let roman := s.takeWhile romanChar
  let rest := s.drop roman.length
  !roman.isEmpty &&
    match rest with
    | '-' :: c1 :: c2 :: rest2 =>
      cyrLetter c1 && cyrLetter c2 &&
        (match rest2.dropWhile Char.isWhitespace with
         | '№' :: ds => ds.length == 6 && ds.all Char.isDigit
         | _ => false)
    | _ => false

/-- The value/symbol table of `PDAnonymizer._int_to_roman`. -/
def romanPairs : List (Nat × List Char) :=
  [(1000, ['M']), (900, ['C', 'M']), (500, ['D']), (400, ['C', 'D']),
   (100, ['C']), (90, ['X', 'C']), (50, ['L']), (40, ['X', 'L']),
   (10, ['X']), (9, ['I', 'X']), (5, ['V']), (4, ['I', 'V']), (1, ['I'])]

/-- The greedy loop of `_int_to_roman`: emit `n / v` copies of each symbol
and continue with the remainder. -/
def romanGo : List (Nat × List Char) → Nat → List Char
  | [], _ => []
  | (v, sy) :: rest, n => (List.replicate (n / v) sy).flatten ++ romanGo rest (n % v)

/-- Embeds `PDAnonymizer._int_to_roman`. -/
def int_to_roman (num : Nat) : List Char := romanGo romanPairs num

/-- Embeds `PDAnonymizer.anonymize_birth_cert`: on shape match, emit a fresh roman
numeral (realized `randint(1, 20)` draw), two fresh Cyrillic letters and six
fresh digits in the canonical form with a single space before `№`. -/
def anonymize_birth_cert (cert : List Char) (rnum : Nat) (letters : List Char)
    (rnd : List Nat) : List Char :=
  if !birthCertShape cert then sentinel
  else int_to_roman rnum ++ '-' :: letters ++ ' ' :: '№' :: (rnd.take 6).map charOfDigit

/-- The space-reinsertion loop of `anonymize_kladr`: for each index `i` of
the original holding a space, if `i` is below the current result length,
insert a space at position `i` of the (growing) result. -/
def kladrReinsert (kladr : List Char) (start : List Char) : List Char :=
  kladr.enum.foldl
    (fun res p =>
      if p.2 == ' ' && decide (p.1 < res.length) then res.take p.1 ++ ' ' :: res.drop p.1
      else res)
    start

/-- Embeds `PDAnonymizer.anonymize_kladr`: require at least 9 digits after removing
whitespace, regenerate a digit string of the same length, then reinsert the
original spaces by repeated single-position insertion. -/
def anonymize_kladr (kladr : List Char) (rnd : List Nat) : List Char :=
  let digits := stripWs kladr
  if !pyIsDigit digits || digits.length < 9 then sentinel
  else
    let newDigits := (rnd.take digits.length).map charOfDigit
    if kladr.contains ' ' then kladrReinsert kladr newDigits else newDigits

/-! ### PatternDetector (ner.py `RegexNER.extract_entities`)

The regex engine itself is Python's `re` library (an external collaborator);
the repository's decision logic — which matches are reported and with which
validity tag — is embedded here, parameterized by the list of matches each
pattern produced, each match being a `(start, end)` span into the text. -/

/-- A regex match: a half-open character span into the scanned text. -/
structure RMatch where
  ms : Nat
  me : Nat
deriving DecidableEq

/-- An entity reported by the detector: tag, validity tag, span. -/
structure Entity where
  tag : String
  validity : String
  estart : Nat
  eend : Nat
deriving DecidableEq

/-- Embeds `text[m.start():m.end()]` — the matched substring. -/
def sliceOf (text : List Char) (m : RMatch) : List Char :=
  (text.drop m.ms).take (m.me - m.ms)

/-- Embeds `RegexNER.extract_entities`: per pattern family, append an entity for
each match — CARD_NUMBER and INN with a validity tag either way, OGRNIP only
when its checksum passes, the rest unconditionally — in the source's order. -/
def extract_entities (text : List Char) (cardMs ogMs ipMs emMs bcMs klMs innMs ppMs :
    List RMatch) : List Entity :=
  (cardMs.map fun m =>
    if luhn_algorithm (stripSep (sliceOf text m)) then
      ⟨"CARD_NUMBER", "valid_card", m.ms, m.me⟩
    else ⟨"CARD_NUMBER", "invalid_card", m.ms, m.me⟩)
  ++ (ogMs.filterMap fun m =>
    if validate_ogrnip (sliceOf text m) then
      some ⟨"OGRNIP", "valid_ogrnip", m.ms, m.me⟩
    else none)
  ++ (ipMs.map fun m => ⟨"IP_ADDRESS", "valid_ip", m.ms, m.me⟩)
  ++ (emMs.map fun m => ⟨"EMAIL", "valid_email", m.ms, m.me⟩)
  ++ (bcMs.map fun m => ⟨"BIRTH_CERT", "valid_birth_cert", m.ms, m.me⟩)
  ++ (klMs.map fun m => ⟨"KLADR", "valid_kladr", m.ms, m.me⟩)
  ++ (innMs.map fun m =>
    if validate_inn (stripSep (sliceOf text m)) then
      ⟨"INN", "valid_inn", m.ms, m.me⟩
    else ⟨"INN", "invalid_inn", m.ms, m.me⟩)
  ++ (ppMs.map fun m =>
    if validate_passport (stripSep (sliceOf text m)) then
      ⟨"PASSPORT", "valid_passport", m.ms, m.me⟩
    else ⟨"PASSPORT", "invalid_passport", m.ms, m.me⟩)

/-! ### AnonymizationDispatcher and TextSplicer (ner_anonymizer.py) -/

/-- All realized randomness / external-collaborator output the replacement
generators consume, bundled so the dispatcher can be a pure function. -/
structure Rand where
  digits : List Nat
  ipOctets : List Nat
  romanNum : Nat
  certLetters : List Char
  newName : List Char
  newLastName : List Char
  newLocal : List Char
deriving DecidableEq

/-- The mask-mode replacement `"#" * len(original_text)`
(`NERAnonymizer.anonymize`, mask branch). -/
def maskReplacement (n : Nat) : List Char := List.replicate n '#'

/-- The closed tag enumeration of the data model. -/
def tagEnum : List String :=
  ["NAME", "SURNAME", "EMAIL", "CARD_NUMBER", "OGRNIP", "IP_ADDRESS",
   "BIRTH_CERT", "KLADR", "INN", "PASSPORT"]

/-- Embeds `NERAnonymizer._get_replacement`: string-keyed dispatch on the tag, in
the source's branch order; the final `else` masks the span. -/
def get_replacement (r : Rand) (tag : String) (orig : List Char) : List Char :=
  if tag = "NAME" then anonymize_name orig r.newName
  else if tag = "SURNAME" then anonymize_last_name orig r.newLastName
  else if tag = "EMAIL" then anonymize_email orig r.newLocal
  else if tag = "CARD_NUMBER" then anonymize_card orig r.digits
  else if tag = "OGRNIP" then anonymize_ogrnip orig r.digits
  else if tag = "IP_ADDRESS" then anonymize_ip orig r.ipOctets
  else if tag = "BIRTH_CERT" then anonymize_birth_cert orig r.romanNum r.certLetters r.digits
  else if tag = "KLADR" then anonymize_kladr orig r.digits
  else maskReplacement orig.length

/-- Stable insertion step of `sorted(key=start, reverse=True)`: an element
moves past another only when the other's start is strictly larger. -/
def insertDescStart (x : Nat × Nat × List Char) :
    List (Nat × Nat × List Char) → List (Nat × Nat × List Char)
  | [] => [x]
  | y :: ys => if y.1 > x.1 then y :: insertDescStart x ys else x :: y :: ys

/-- Embeds `sorted(replacements, key=lambda x: x[0], reverse=True)`: stable sort
descending on start. -/
def sortDescStart (rs : List (Nat × Nat × List Char)) : List (Nat × Nat × List Char) :=
  rs.foldr insertDescStart []

/-- The splicing loop of `NERAnonymizer.anonymize`: sort the instructions
descending by start and apply `text = text[:start] + replacement + text[end:]`
for each in that order. -/
def applyReplacements (text : List Char) (rs : List (Nat × Nat × List Char)) : List Char :=
  (sortDescStart rs).foldl (fun t r => t.take r.1 ++ r.2.2 ++ t.drop r.2.1) text

/-- Embeds `NERAnonymizer.__init__`: any mode other than `"mask"`/`"replace"`
raises `ValueError` (modelled as `Except.error` carrying the message);
otherwise the constructed instance's mode is returned. -/
def nerAnonymizerInit (mode : String) : Except String String :=
  if mode ∉ ["mask", "replace"] then
    Except.error "Режим должен быть 'mask' или 'replace'"
  else Except.ok mode

/-! ### The identifier pattern languages (ner.py `RegexNER.__init__`)

For each identifier regex, a recognizer of the set of substrings the
pattern can report from `finditer` (word-boundary and laziness effects on
the match extent folded in, as noted per pattern). -/

/-- Embeds `\b(?:\d[ -]*?){13,19}\b` (card): starts and ends with a digit, built
from digits, spaces and hyphens, with 13–19 digits in total. -/
def cardMatch (s : List Char) : Bool :=
  !s.isEmpty
  && (s.headD '?').isDigit
  && (s.getLastD '?').isDigit
  && s.all (fun c => c.isDigit || c == ' ' || c == '-')
  && decide (13 ≤ (s.filter Char.isDigit).length)
  && decide ((s.filter Char.isDigit).length ≤ 19)

/-- Embeds `\b\d{15}\b` (OGRNIP): exactly 15 digits. -/
def ogrnipMatch (s : List Char) : Bool :=
  s.length == 15 && s.all Char.isDigit

/-- Embeds `\b\d{10,12}\b` (INN): 10 to 12 digits. -/
def innMatch (s : List Char) : Bool :=
  decide (10 ≤ s.length) && decide (s.length ≤ 12) && s.all Char.isDigit

/-- One octet alternative `25[0-5]|2[0-4][0-9]|[01]?[0-9][0-9]?`: 1–3
digits; a 3-digit group must start with 0, 1 or 2 and denote at most 255. -/
def octetMatch (g : List Char) : Bool :=
  g.all Char.isDigit
  && decide (1 ≤ g.length) && decide (g.length ≤ 3)
  && (decide (g.length < 3) || (decide (toNatDigits g ≤ 255) && (g.headD '?') ≤ '2'))

/-- The IP-address pattern: four dot-separated octet groups. -/
def ipMatch (s : List Char) : Bool :=
  (splitDot s).length == 4 && (splitDot s).all octetMatch

/-- Embeds `[A-Za-z0-9._%+-]`: the email local-part character class. -/
def localChar (c : Char) : Bool :=
  c.isAlphanum || c == '.' || c == '_' || c == '%' || c == '+' || c == '-'

/-- Embeds `[A-Za-z0-9.-]`: the email domain character class. -/
def domainChar (c : Char) : Bool := c.isAlphanum || c == '.' || c == '-'

/-- Embeds `\b[A-Za-z0-9._%+-]+@[A-Za-z0-9.-]+\.[A-Za-z]{2,}\b` (email): nonempty
local part, `@`, a domain whose final dot is followed by at least two ASCII
letters and preceded by a nonempty run of domain characters. -/
def emailMatch (s : List Char) : Bool :=
  let lp := s.takeWhile (fun c => c ≠ '@')
  let rest := (s.dropWhile (fun c => c ≠ '@')).drop 1
  decide ('@' ∈ s)
  && !lp.isEmpty && lp.all localChar
  && rest.contains '.'
  && (let tldRev := rest.reverse.takeWhile (fun c => c ≠ '.')
      let mid := rest.take (rest.length - tldRev.length - 1)
      !mid.isEmpty && mid.all domainChar
        && decide (2 ≤ tldRev.length) && tldRev.all Char.isAlpha)

/-- Embeds `\b(?:[IVXLCDM]+-[А-ЯЁ]{2}\s*№\d{6})\b` with `re.IGNORECASE`
(birth certificate): same parse as `birthCertShape`. -/
def birthCertMatch (s : List Char) : Bool := birthCertShape s

/-- Embeds `\b\d{2}\s*\d{2}\s*\d{3}\s*\d{2}\b` (KLADR): digit groups 2-2-3-2 with
optional whitespace between them. -/
def kladrMatch (s : List Char) : Bool :=
  match eatDigits 2 s with
  | none => false
  | some s1 =>
    match eatDigits 2 (s1.dropWhile Char.isWhitespace) with
    | none => false
    | some s2 =>
      match eatDigits 3 (s2.dropWhile Char.isWhitespace) with
      | none => false
      | some s3 =>
        match eatDigits 2 (s3.dropWhile Char.isWhitespace) with
        | none => false
        | some s4 => s4.isEmpty

/-- Embeds `\b\d{4}\s*\d{6}\b` (passport): 4 digits, optional whitespace, 6 digits. -/
def passportMatch (s : List Char) : Bool :=
  match eatDigits 4 s with
  | none => false
  | some s1 =>
    match eatDigits 6 (s1.dropWhile Char.isWhitespace) with
    | none => false
    | some s2 => s2.isEmpty

/-! ### Basic lemmas about the digit-character coding -/

theorem digitVal_charOfDigit {n : Nat} (h : n < 10) : digitVal (charOfDigit n) = n := by
  interval_cases n <;> decide

theorem isDigit_charOfDigit {n : Nat} (h : n < 10) : (charOfDigit n).isDigit = true := by
  interval_cases n <;> decide

theorem sep_false_of_isDigit {c : Char} (h : c.isDigit = true) :
    (c == ' ' || c == '-') = false := by
  have hs : c ≠ ' ' := by intro e; subst e; exact absurd h (by decide)
  have hh : c ≠ '-' := by intro e; subst e; exact absurd h (by decide)
  simp [hs, hh]

theorem stripSep_all_digits {s : List Char} (h : s.all Char.isDigit = true) :
    stripSep s = s := by
  rw [List.all_eq_true] at h
  refine List.filter_eq_self.mpr fun c hc => ?_
  simpa using sep_false_of_isDigit (by simpa using h c hc)

/-! ### C7, C10, C3, C1 -/

/-- C7: the text splicer sorts the replacement instructions descending by
start (stably) and applies each by the Python slicing step; on the spec's
example it yields `"aXcYef"`. -/
theorem c7_splicer_example :
    sortDescStart [(1, 2, "X".toList), (3, 4, "Y".toList)]
      = [(3, 4, "Y".toList), (1, 2, "X".toList)] ∧
    applyReplacements ("abcdef".toList) [(1, 2, "X".toList), (3, 4, "Y".toList)]
      = "aXcYef".toList := by
  decide

/-- C10: constructing a `NERAnonymizer` with a mode other than `"mask"` or
`"replace"` raises `ValueError` (embedded as `Except.error` with the source's
message); the two legal modes construct normally. -/
theorem c10_mode_validation (mode : String) (h1 : mode ≠ "mask") (h2 : mode ≠ "replace") :
    nerAnonymizerInit mode = Except.error "Режим должен быть 'mask' или 'replace'" ∧
    nerAnonymizerInit "mask" = Except.ok "mask" ∧
    nerAnonymizerInit "replace" = Except.ok "replace" := by
  refine ⟨?_, rfl, rfl⟩
  simp [nerAnonymizerInit, h1, h2]

/-- Witness for C10 at the concrete illegal mode `"foo"`. -/
theorem c10_mode_validation_witness :
    nerAnonymizerInit "foo" = Except.error "Режим должен быть 'mask' или 'replace'" :=
  (c10_mode_validation "foo" (by decide) (by decide)).1

/-- C3: the Luhn validator accepts a (separator-stripped) digit string iff
the position-weighted digit sum — doubling at left index `i` exactly when
`i % 2 = L % 2`, subtracting 9 from doubled values above 9 — is divisible
by 10; it accepts `"4539 1488 0343 6467"` and rejects `"4539 1488 0343 6460"`. -/
theorem c3_luhn_validator :
    (∀ s : List Char, pyIsDigit (stripSep s) = true →
      (luhn_algorithm s = true ↔
        luhnTotalGo (stripSep s).length 0 ((stripSep s).map digitVal) % 10 = 0)) ∧
    luhn_algorithm ("4539 1488 0343 6467".toList) = true ∧
    luhn_algorithm ("4539 1488 0343 6460".toList) = false := by
  refine ⟨fun s h => ?_, by decide, by decide⟩
  simp [luhn_algorithm, h]

/-- Witness for C3 at the concrete digit string `"4539148803436467"`. -/
theorem c3_luhn_validator_witness :
    luhn_algorithm ("4539148803436467".toList) = true ↔
      luhnTotalGo (stripSep ("4539148803436467".toList)).length 0
        ((stripSep ("4539148803436467".toList)).map digitVal) % 10 = 0 :=
  c3_luhn_validator.1 ("4539148803436467".toList) (by decide)

/-- C1 counterexample: `"INN"` is in the closed tag enumeration, yet the
dispatcher masks the span (it does not route to `anonymize_inn`), refuting
the claim that only tags outside the enumeration fall back to masking. -/
theorem c1_inn_masked_counterexample :
    "INN" ∈ tagEnum ∧
    get_replacement ⟨[1, 2, 3, 4, 5, 6, 7, 8, 9], [], 1, [], [], [], []⟩ "INN"
        ("7801920588".toList) = maskReplacement 10 ∧
    get_replacement ⟨[1, 2, 3, 4, 5, 6, 7, 8, 9], [], 1, [], [], [], []⟩ "INN"
        ("7801920588".toList)
      ≠ anonymize_inn ("7801920588".toList) [1, 2, 3, 4, 5, 6, 7, 8, 9] := by
  decide

/-- C1 (amended): the dispatcher routes exactly the eight tags NAME, SURNAME,
EMAIL, CARD_NUMBER, OGRNIP, IP_ADDRESS, BIRTH_CERT, KLADR to the matching
generator; every other tag — including INN and PASSPORT, which are in the
tag enumeration — falls back to masking. -/
theorem c1_dispatch_amended (r : Rand) (orig : List Char) (tag : String)
    (h : tag ∉ ["NAME", "SURNAME", "EMAIL", "CARD_NUMBER", "OGRNIP", "IP_ADDRESS",
      "BIRTH_CERT", "KLADR"]) :
    get_replacement r tag orig = maskReplacement orig.length ∧
    get_replacement r "NAME" orig = anonymize_name orig r.newName ∧
    get_replacement r "SURNAME" orig = anonymize_last_name orig r.newLastName ∧
    get_replacement r "EMAIL" orig = anonymize_email orig r.newLocal ∧
    get_replacement r "CARD_NUMBER" orig = anonymize_card orig r.digits ∧
    get_replacement r "OGRNIP" orig = anonymize_ogrnip orig r.digits ∧
    get_replacement r "IP_ADDRESS" orig = anonymize_ip orig r.ipOctets ∧
    get_replacement r "BIRTH_CERT" orig
      = anonymize_birth_cert orig r.romanNum r.certLetters r.digits ∧
    get_replacement r "KLADR" orig = anonymize_kladr orig r.digits ∧
    get_replacement r "INN" orig = maskReplacement orig.length ∧
    get_replacement r "PASSPORT" orig = maskReplacement orig.length := by
  simp only [List.mem_cons, List.not_mem_nil, or_false, not_or] at h
  obtain ⟨h1, h2, h3, h4, h5, h6, h7, h8⟩ := h
  refine ⟨?_, rfl, rfl, rfl, rfl, rfl, rfl, rfl, rfl, rfl, rfl⟩
  simp [get_replacement, h1, h2, h3, h4, h5, h6, h7, h8]

/-- Witness for C1 (amended) at the concrete tag `"INN"`. -/
theorem c1_dispatch_amended_witness :
    get_replacement ⟨[], [], 1, [], [], [], []⟩ "INN" ("7801920588".toList)
      = maskReplacement (("7801920588".toList).length) :=
  (c1_dispatch_amended ⟨[], [], 1, [], [], [], []⟩ ("7801920588".toList) "INN"
    (by decide)).1

/-! ### C4, C5 -/

theorem all_digits_map_charOfDigit {ds : List Nat} (h : ∀ d ∈ ds, d < 10) :
    (ds.map charOfDigit).all Char.isDigit = true := by
  rw [List.all_eq_true]
  intro c hc
  rw [List.mem_map] at hc
  obtain ⟨d, hd, rfl⟩ := hc
  exact isDigit_charOfDigit (h d hd)

theorem pyIsDigit_append_digit {l : List Char} {c : Char}
    (hl : l.all Char.isDigit = true) (hc : c.isDigit = true) :
    pyIsDigit (l ++ [c]) = true := by
  simp [pyIsDigit, hl, hc]

theorem getD_append_self {l t : List Char} {d : Char} :
    (l ++ t).getD l.length d = t.getD 0 d := by
  simp [List.getD_eq_getElem?_getD, List.getElem?_append_right (Nat.le_refl l.length)]

/-- C4: on a 10-digit input, `anonymize_inn` returns a 10-digit string that
passes the INN-10 control formula of the validator; on a 12-digit input, a
12-digit string passing both INN-12 controls — for every realization of the
random digit draws. -/
theorem c4_inn_generator_valid (inn : List Char) (rnd : List Nat)
    (hd : pyIsDigit inn = true) (hlen : inn.length = 10 ∨ inn.length = 12)
    (hr : 10 ≤ rnd.length) (hb : ∀ d ∈ rnd, d < 10) :
    (anonymize_inn inn rnd).length = inn.length ∧
    pyIsDigit (anonymize_inn inn rnd) = true ∧
    validate_inn (anonymize_inn inn rnd) = true := by
  have hb9 : ∀ d ∈ rnd.take 9, d < 10 := fun d hd => hb d (List.take_subset _ _ hd)
  have hb10 : ∀ d ∈ rnd.take 10, d < 10 := fun d hd => hb d (List.take_subset _ _ hd)
  rcases hlen with h10 | h12
  · -- 10-digit branch
    set base := (rnd.take 9).map charOfDigit with hbase
    set k := calc_inn_control base innW10 with hk
    have hkl : k < 10 := Nat.mod_lt _ (by omega)
    have hbl : base.length = 9 := by
      rw [hbase, List.length_map, List.length_take]; omega
    have hball : base.all Char.isDigit = true := all_digits_map_charOfDigit hb9
    have hres : anonymize_inn inn rnd = base ++ [charOfDigit k] := by
      simp [anonymize_inn, hd, h10, hk, hbase, List.map_take]
    have hrall : (base ++ [charOfDigit k]).all Char.isDigit = true := by
      simp [List.all_append, hball, isDigit_charOfDigit hkl]
    refine ⟨by simp [hres, hbl, h10], by rw [hres]; exact pyIsDigit_append_digit hball (isDigit_charOfDigit hkl), ?_⟩
    rw [hres]
    have hstrip : stripSep (base ++ [charOfDigit k]) = base ++ [charOfDigit k] :=
      stripSep_all_digits hrall
    have hlen' : (base ++ [charOfDigit k]).length = 10 := by simp [hbl]
    have htake : (base ++ [charOfDigit k]).take 9 = base := by
      rw [← hbl, List.take_left]
    have hget : (base ++ [charOfDigit k]).getD 9 '0' = charOfDigit k := by
      rw [← hbl, getD_append_self]; rfl
    simp only [validate_inn, hstrip, pyIsDigit_append_digit hball (isDigit_charOfDigit hkl),
      Bool.not_true, hlen', htake, hget, digitVal_charOfDigit hkl]
    simp
  · -- 12-digit branch
    set base := (rnd.take 10).map charOfDigit with hbase
    have hbl : base.length = 10 := by
      rw [hbase, List.length_map, List.length_take]; omega
    have hball : base.all Char.isDigit = true := all_digits_map_charOfDigit hb10
    have ht10 : base.take 10 = base := List.take_of_length_le (by omega)
    have ht11 : base.take 11 = base := List.take_of_length_le (by omega)
    set k1 := calc_inn_control base innW12a with hk1
    have hk1l : k1 < 10 := Nat.mod_lt _ (by omega)
    set k2 := calc_inn_control (base ++ [charOfDigit k1]) innW12b with hk2
    have hk2l : k2 < 10 := Nat.mod_lt _ (by omega)
    have hres : anonymize_inn inn rnd = (base ++ [charOfDigit k1]) ++ [charOfDigit k2] := by
      simp only [anonymize_inn, hd, Bool.not_true, if_false, h12]
      simp [ht10, ht11, ← hbase, ← hk1, ← hk2]
    have hball1 : (base ++ [charOfDigit k1]).all Char.isDigit = true := by
      simp [List.all_append, hball, isDigit_charOfDigit hk1l]
    have hrall : ((base ++ [charOfDigit k1]) ++ [charOfDigit k2]).all Char.isDigit = true := by
      simp [List.all_append, hball, isDigit_charOfDigit hk1l, isDigit_charOfDigit hk2l]
    have hbl1 : (base ++ [charOfDigit k1]).length = 11 := by simp [hbl]
    refine ⟨by simp [hres, hbl, h12], by rw [hres]; exact pyIsDigit_append_digit hball1 (isDigit_charOfDigit hk2l), ?_⟩
    rw [hres]
    have hstrip : stripSep ((base ++ [charOfDigit k1]) ++ [charOfDigit k2])
        = (base ++ [charOfDigit k1]) ++ [charOfDigit k2] := stripSep_all_digits hrall
    have hlen' : ((base ++ [charOfDigit k1]) ++ [charOfDigit k2]).length = 12 := by
      simp [hbl]
    have htakeA : ((base ++ [charOfDigit k1]) ++ [charOfDigit k2]).take 10 = base := by
      rw [List.append_assoc, ← hbl, List.take_left]
    have hgetA : ((base ++ [charOfDigit k1]) ++ [charOfDigit k2]).getD 10 '0'
        = charOfDigit k1 := by
      rw [List.append_assoc, ← hbl, getD_append_self]; rfl
    have htakeB : ((base ++ [charOfDigit k1]) ++ [charOfDigit k2]).take 11
        = base ++ [charOfDigit k1] := by
      rw [← hbl1, List.take_left]
    have hgetB : ((base ++ [charOfDigit k1]) ++ [charOfDigit k2]).getD 11 '0'
        = charOfDigit k2 := by
      rw [← hbl1, getD_append_self]; rfl
    simp only [validate_inn, hstrip,
      pyIsDigit_append_digit hball1 (isDigit_charOfDigit hk2l), Bool.not_true,
      hlen', htakeA, hgetA, htakeB, hgetB,
      digitVal_charOfDigit hk1l, digitVal_charOfDigit hk2l]
    simp

/-- Witness for C4: a concrete 10-digit input and digit draw. -/
theorem c4_inn_generator_valid_witness :
    validate_inn (anonymize_inn ("7801920588".toList)
      [1, 2, 3, 4, 5, 6, 7, 8, 9, 0]) = true :=
  (c4_inn_generator_valid ("7801920588".toList) [1, 2, 3, 4, 5, 6, 7, 8, 9, 0]
    (by decide) (Or.inl (by decide)) (by decide) (by decide)).2.2

/-- C5: on a 15-digit input, `anonymize_ogrnip` returns exactly a fresh
14-digit base followed by the control digit `int(base) % 13 % 10`; the
resulting string passes the detection-time validator (which uses modulus 11)
only when the two moduli happen to agree on the base. -/
theorem c5_ogrnip_generator (s : List Char) (rnd : List Nat)
    (hd : pyIsDigit s = true) (hlen : s.length = 15)
    (hr : 14 ≤ rnd.length) (hb : ∀ d ∈ rnd, d < 10) :
    anonymize_ogrnip s rnd
      = ((rnd.take 14).map charOfDigit)
        ++ [charOfDigit (toNatDigits ((rnd.take 14).map charOfDigit) % 13 % 10)] ∧
    (anonymize_ogrnip s rnd).length = 15 ∧
    pyIsDigit (anonymize_ogrnip s rnd) = true ∧
    (validate_ogrnip (anonymize_ogrnip s rnd) = true ↔
      toNatDigits ((rnd.take 14).map charOfDigit) % 11 % 10
        = toNatDigits ((rnd.take 14).map charOfDigit) % 13 % 10) := by
  have hb14 : ∀ d ∈ rnd.take 14, d < 10 := fun d hd => hb d (List.take_subset _ _ hd)
  set base := (rnd.take 14).map charOfDigit with hbase
  set k := toNatDigits base % 13 % 10 with hk
  have hkl : k < 10 := Nat.mod_lt _ (by omega)
  have hbl : base.length = 14 := by
    rw [hbase, List.length_map, List.length_take]; omega
  have hball : base.all Char.isDigit = true := all_digits_map_charOfDigit hb14
  have hres : anonymize_ogrnip s rnd = base ++ [charOfDigit k] := by
    simp [anonymize_ogrnip, hd, hlen, hk, hbase, List.map_take]
  have hrall : (base ++ [charOfDigit k]).all Char.isDigit = true := by
    simp [List.all_append, hball, isDigit_charOfDigit hkl]
  have hpy : pyIsDigit (base ++ [charOfDigit k]) = true :=
    pyIsDigit_append_digit hball (isDigit_charOfDigit hkl)
  have hlen' : (base ++ [charOfDigit k]).length = 15 := by simp [hbl]
  have htake : (base ++ [charOfDigit k]).take 14 = base := by
    rw [← hbl, List.take_left]
  have hget : (base ++ [charOfDigit k]).getD 14 '0' = charOfDigit k := by
    rw [← hbl, getD_append_self]; rfl
  refine ⟨hres, by simp [hres, hlen'], by rw [hres]; exact hpy, ?_⟩
  rw [hres]
  simp only [validate_ogrnip, hlen', hpy, Bool.not_true, htake, hget,
    digitVal_charOfDigit hkl]
  simp [← hk]

/-- Witness for C5: a concrete 15-digit input and digit draw whose base is
`00000000000013`, exhibiting the mod-13 control digit 0 (the mod-11
validator expects 2, so validation fails). -/
theorem c5_ogrnip_generator_witness :
    anonymize_ogrnip ("255547853460739".toList)
        [0, 0, 0, 0, 0, 0, 0, 0, 0, 0, 0, 0, 1, 3]
      = ("000000000000130".toList) ∧
    validate_ogrnip (anonymize_ogrnip ("255547853460739".toList)
        [0, 0, 0, 0, 0, 0, 0, 0, 0, 0, 0, 0, 1, 3]) = false := by
  have h := c5_ogrnip_generator ("255547853460739".toList)
    [0, 0, 0, 0, 0, 0, 0, 0, 0, 0, 0, 0, 1, 3]
    (by decide) (by decide) (by decide) (by decide)
  refine ⟨by rw [h.1]; decide, ?_⟩
  have h4 := h.2.2.2
  rw [show (validate_ogrnip (anonymize_ogrnip ("255547853460739".toList)
      [0, 0, 0, 0, 0, 0, 0, 0, 0, 0, 0, 0, 1, 3]) = false)
    ↔ ¬(validate_ogrnip (anonymize_ogrnip ("255547853460739".toList)
      [0, 0, 0, 0, 0, 0, 0, 0, 0, 0, 0, 0, 1, 3]) = true) by simp]
  rw [h4]
  decide

/-! ### C8 -/

/-- C8: every generator operation is a total function (by construction in
this embedding, mirroring the source's catch-all `except` clauses), and on
malformed input — each operation's own validation predicate failing: blank
or forbidden-character names, local-part-less emails, wrong digit counts,
shape mismatches — it returns the fixed literal failure sentinel. -/
theorem c8_generators_sentinel :
    (∀ name drawn : List Char,
      isBlank name = true ∨ name.any forbiddenNameChar = true →
      anonymize_name name drawn = sentinel) ∧
    (∀ ln drawn : List Char,
      isBlank ln = true ∨ ln.any forbiddenNameChar = true →
      anonymize_last_name ln drawn = sentinel) ∧
    (∀ email nl : List Char,
      isBlank email = true ∨ email.contains '@' = false →
      anonymize_email email nl = sentinel) ∧
    (∀ (inn : List Char) (rnd : List Nat),
      pyIsDigit inn = false ∨ (inn.length ≠ 10 ∧ inn.length ≠ 12) →
      anonymize_inn inn rnd = sentinel) ∧
    (∀ (phone : List Char) (rnd : List Nat),
      isBlank phone = true ∨ phone.all phoneChar = false ∨
        (phone.filter Char.isDigit).length < 7 →
      anonymize_phone phone rnd = sentinel) ∧
    (∀ (pp : List Char) (rnd : List Nat), passportFullShape pp = false →
      anonymize_passport pp rnd = sentinel) ∧
    (∀ (card : List Char) (rnd : List Nat),
      (card.filter Char.isDigit).length < 13 ∨ 19 < (card.filter Char.isDigit).length →
      anonymize_card card rnd = sentinel) ∧
    (∀ (og : List Char) (rnd : List Nat), pyIsDigit og = false ∨ og.length ≠ 15 →
      anonymize_ogrnip og rnd = sentinel) ∧
    (∀ (ip : List Char) (oct : List Nat), (splitDot ip).length ≠ 4 →
      anonymize_ip ip oct = sentinel) ∧
    (∀ (cert : List Char) (rn : Nat) (ls : List Char) (rnd : List Nat),
      birthCertShape cert = false → anonymize_birth_cert cert rn ls rnd = sentinel) ∧
    (∀ (kl : List Char) (rnd : List Nat),
      pyIsDigit (stripWs kl) = false ∨ (stripWs kl).length < 9 →
      anonymize_kladr kl rnd = sentinel) := by
  refine ⟨?_, ?_, ?_, ?_, ?_, ?_, ?_, ?_, ?_, ?_, ?_⟩
  · rintro name drawn (h | h) <;> simp [anonymize_name, h]
  · rintro ln drawn (h | h) <;> simp [anonymize_last_name, h]
  · rintro email nl (h | h)
    · simp [anonymize_email, h]
    · have h' : '@' ∉ email := by simpa using h
      simp [anonymize_email, h']
  · rintro inn rnd (h | ⟨h10, h12⟩) <;> simp [anonymize_inn, *]
  · rintro phone rnd (h | h | h) <;> simp [anonymize_phone, h]
  · intro pp rnd h
    simp [anonymize_passport, h]
  · intro card rnd h
    have hc : ¬(13 ≤ (card.filter Char.isDigit).length ∧
        (card.filter Char.isDigit).length ≤ 19) := by omega
    simp [anonymize_card, hc]
  · rintro og rnd (h | h) <;> simp [anonymize_ogrnip, h]
  · intro ip oct h
    simp [anonymize_ip, h]
  · intro cert rn ls rnd h
    simp [anonymize_birth_cert, h]
  · rintro kl rnd (h | h) <;> simp [anonymize_kladr, h]

/-- Witness for C8: one concrete malformed input per generator operation. -/
theorem c8_generators_sentinel_witness :
    anonymize_name [] [] = sentinel ∧
    anonymize_last_name ("R2D2".toList) [] = sentinel ∧
    anonymize_email ("ivanov.example.com".toList) [] = sentinel ∧
    anonymize_inn ("123".toList) [] = sentinel ∧
    anonymize_phone ("12 34".toList) [] = sentinel ∧
    anonymize_passport ("12345 67890".toList) [] = sentinel ∧
    anonymize_card ("1234".toList) [] = sentinel ∧
    anonymize_ogrnip ("12345".toList) [] = sentinel ∧
    anonymize_ip ("abc".toList) [] = sentinel ∧
    anonymize_birth_cert ("X-VI 901709".toList) 1 [] [] = sentinel ∧
    anonymize_kladr ("12 34".toList) [] = sentinel := by
  obtain ⟨p1, p2, p3, p4, p5, p6, p7, p8, p9, p10, p11⟩ := c8_generators_sentinel
  exact ⟨p1 [] [] (Or.inl (by decide)),
    p2 ("R2D2".toList) [] (Or.inr (by decide)),
    p3 ("ivanov.example.com".toList) [] (Or.inr (by decide)),
    p4 ("123".toList) [] (Or.inr (by decide)),
    p5 ("12 34".toList) [] (Or.inr (Or.inr (by decide))),
    p6 ("12345 67890".toList) [] (by decide),
    p7 ("1234".toList) [] (Or.inl (by decide)),
    p8 ("12345".toList) [] (Or.inr (by decide)),
    p9 ("abc".toList) [] (by decide),
    p10 ("X-VI 901709".toList) 1 [] [] (by decide),
    p11 ("12 34".toList) [] (Or.inr (by decide))⟩

/-! ### C6 -/

/-- C6: every CARD_NUMBER and INN match is reported with an explicit
validity tag whether its checksum passes or not; an OGRNIP match is reported
only when its checksum passes, and every reported OGRNIP entity carries the
valid tag and stems from a checksum-passing match — failing OGRNIP matches
are omitted entirely. -/
theorem c6_detector_reporting (text : List Char)
    (cardMs ogMs ipMs emMs bcMs klMs innMs ppMs : List RMatch) :
    (∀ m ∈ cardMs,
      (if luhn_algorithm (stripSep (sliceOf text m)) then
        (⟨"CARD_NUMBER", "valid_card", m.ms, m.me⟩ : Entity)
      else ⟨"CARD_NUMBER", "invalid_card", m.ms, m.me⟩)
        ∈ extract_entities text cardMs ogMs ipMs emMs bcMs klMs innMs ppMs) ∧
    (∀ m ∈ innMs,
      (if validate_inn (stripSep (sliceOf text m)) then
        (⟨"INN", "valid_inn", m.ms, m.me⟩ : Entity)
      else ⟨"INN", "invalid_inn", m.ms, m.me⟩)
        ∈ extract_entities text cardMs ogMs ipMs emMs bcMs klMs innMs ppMs) ∧
    (∀ m ∈ ogMs, validate_ogrnip (sliceOf text m) = true →
      (⟨"OGRNIP", "valid_ogrnip", m.ms, m.me⟩ : Entity)
        ∈ extract_entities text cardMs ogMs ipMs emMs bcMs klMs innMs ppMs) ∧
    (∀ e ∈ extract_entities text cardMs ogMs ipMs emMs bcMs klMs innMs ppMs,
      e.tag = "OGRNIP" →
      e.validity = "valid_ogrnip" ∧
      ∃ m ∈ ogMs, e.estart = m.ms ∧ e.eend = m.me ∧
        validate_ogrnip (sliceOf text m) = true) := by
  refine ⟨?_, ?_, ?_, ?_⟩
  · intro m hm
    simp only [extract_entities, List.mem_append]
    exact Or.inl (Or.inl (Or.inl (Or.inl (Or.inl (Or.inl (Or.inl
      (List.mem_map.mpr ⟨m, hm, rfl⟩)))))))
  · intro m hm
    simp only [extract_entities, List.mem_append]
    exact Or.inl (Or.inr (List.mem_map.mpr ⟨m, hm, rfl⟩))
  · intro m hm hv
    simp only [extract_entities, List.mem_append]
    exact Or.inl (Or.inl (Or.inl (Or.inl (Or.inl (Or.inl (Or.inr
      (List.mem_filterMap.mpr ⟨m, hm, by rw [hv]; rfl⟩)))))))
  · intro e he htag
    simp only [extract_entities, List.mem_append] at he
    rcases he with ((((((hc | ho) | hi) | hem) | hb) | hk) | hin) | hp
    · obtain ⟨m, hm, heq⟩ := List.mem_map.mp hc
      by_cases hl : luhn_algorithm (stripSep (sliceOf text m)) <;>
        simp [hl] at heq <;> rw [← heq] at htag <;> simp at htag
    · obtain ⟨m, hm, heq⟩ := List.mem_filterMap.mp ho
      by_cases hv : validate_ogrnip (sliceOf text m)
      · rw [if_pos hv] at heq
        obtain rfl : (⟨"OGRNIP", "valid_ogrnip", m.ms, m.me⟩ : Entity) = e :=
          Option.some.inj heq
        exact ⟨rfl, m, hm, rfl, rfl, hv⟩
      · rw [if_neg hv] at heq
        exact absurd heq (by simp)
    · obtain ⟨m, hm, heq⟩ := List.mem_map.mp hi
      rw [← heq] at htag
      simp at htag
    · obtain ⟨m, hm, heq⟩ := List.mem_map.mp hem
      rw [← heq] at htag
      simp at htag
    · obtain ⟨m, hm, heq⟩ := List.mem_map.mp hb
      rw [← heq] at htag
      simp at htag
    · obtain ⟨m, hm, heq⟩ := List.mem_map.mp hk
      rw [← heq] at htag
      simp at htag
    · obtain ⟨m, hm, heq⟩ := List.mem_map.mp hin
      by_cases hv : validate_inn (stripSep (sliceOf text m)) <;>
        simp [hv] at heq <;> rw [← heq] at htag <;> simp at htag
    · obtain ⟨m, hm, heq⟩ := List.mem_map.mp hp
      by_cases hv : validate_passport (stripSep (sliceOf text m)) <;>
        simp [hv] at heq <;> rw [← heq] at htag <;> simp at htag

/-- Witness for C6: a checksum-valid OGRNIP match is reported. -/
theorem c6_detector_reporting_witness :
    (⟨"OGRNIP", "valid_ogrnip", 0, 15⟩ : Entity)
      ∈ extract_entities ("000000000000000".toList) [] [⟨0, 15⟩] [] [] [] [] [] [] :=
  (c6_detector_reporting ("000000000000000".toList) [] [⟨0, 15⟩] [] [] [] [] [] []).2.2.1
    ⟨0, 15⟩ (by decide) (by decide)

/-! ### C2: the card generator preserves the skeleton and Luhn validity -/

theorem luhnTotalGo_mod2 {L L' : Nat} (h : L % 2 = L' % 2) :
    ∀ (ds : List Nat) (i : Nat), luhnTotalGo L i ds = luhnTotalGo L' i ds
  | [], _ => rfl
  | d :: ds, i => by
    simp only [luhnTotalGo, h, luhnTotalGo_mod2 h ds (i + 1)]

theorem luhnTotalGo_append (x L : Nat) :
    ∀ (ds : List Nat) (i : Nat),
      luhnTotalGo L i (ds ++ [x])
        = luhnTotalGo L i ds + (if (i + ds.length) % 2 = L % 2 then luhnAdj x else x)
  | [], i => by simp [luhnTotalGo]
  | d :: ds, i => by
    simp only [List.cons_append, luhnTotalGo, List.append_eq]
    rw [luhnTotalGo_append x L ds (i + 1)]
    simp only [List.length_cons]
    have e : i + 1 + ds.length = i + (ds.length + 1) := by omega
    rw [e]
    omega

theorem parSum_reverse (ds : List Nat) :
    ∀ b : Bool, parSum b ds.reverse = luhnTotalGo (ds.length + cond b 1 0) 0 ds := by
  induction ds using List.reverseRecOn with
  | nil => intro b; cases b <;> rfl
  | append_singleton ds d ih =>
    intro b
    have hrev : (ds ++ [d]).reverse = d :: ds.reverse := by simp
    rw [hrev]
    cases b
    · have lhs : parSum false (d :: ds.reverse) = d + parSum true ds.reverse := by
        simp [parSum]
      rw [lhs, ih true, luhnTotalGo_append, List.length_append, List.length_singleton]
      rw [if_neg (by simp only [cond_false]; omega)]
      have hgo : luhnTotalGo (ds.length + cond true 1 0) 0 ds
          = luhnTotalGo (ds.length + 1 + cond false 1 0) 0 ds :=
        luhnTotalGo_mod2 (by simp only [cond_true, cond_false]) ds 0
      rw [hgo]; omega
    · have lhs : parSum true (d :: ds.reverse) = luhnAdj d + parSum false ds.reverse := by
        simp [parSum]
      rw [lhs, ih false, luhnTotalGo_append, List.length_append, List.length_singleton]
      rw [if_pos (by simp only [cond_true]; omega)]
      have hgo : luhnTotalGo (ds.length + cond false 1 0) 0 ds
          = luhnTotalGo (ds.length + 1 + cond true 1 0) 0 ds :=
        luhnTotalGo_mod2 (by simp only [cond_true, cond_false]; omega) ds 0
      rw [hgo]; omega

/-- The generated digit string `body ++ [check]` of `anonymize_card` always
passes the detection-time Luhn validator. -/
theorem luhn_card_core (bs : List Nat) (hb : ∀ d ∈ bs, d < 10) :
    luhn_algorithm ((bs.map charOfDigit)
      ++ [charOfDigit (luhn_checksum (bs.map charOfDigit))]) = true := by
  have hmapval : (bs.map charOfDigit).map digitVal = bs := by
    rw [List.map_map]
    have h : ∀ d ∈ bs, (digitVal ∘ charOfDigit) d = id d := fun d hd =>
      digitVal_charOfDigit (hb d hd)
    rw [List.map_congr_left h, List.map_id]
  have hrev : (bs.map charOfDigit).reverse.map digitVal = bs.reverse := by
    rw [← List.map_reverse, List.map_map]
    have h : ∀ d ∈ bs.reverse, (digitVal ∘ charOfDigit) d = id d := fun d hd =>
      digitVal_charOfDigit (hb d (List.mem_reverse.mp hd))
    rw [List.map_congr_left h, List.map_id]
  have hchk : luhn_checksum (bs.map charOfDigit)
      = (10 - parSum true bs.reverse % 10) % 10 := by
    rw [luhn_checksum, hrev]
  set s := parSum true bs.reverse with hs
  set k := (10 - s % 10) % 10 with hkdef
  rw [hchk]
  have hk10 : k < 10 := Nat.mod_lt _ (by omega)
  have hall : ((bs.map charOfDigit) ++ [charOfDigit k]).all Char.isDigit = true := by
    simp [List.all_append, all_digits_map_charOfDigit hb, isDigit_charOfDigit hk10]
  have hstrip : stripSep ((bs.map charOfDigit) ++ [charOfDigit k])
      = (bs.map charOfDigit) ++ [charOfDigit k] := stripSep_all_digits hall
  have hpy : pyIsDigit ((bs.map charOfDigit) ++ [charOfDigit k]) = true :=
    pyIsDigit_append_digit (all_digits_map_charOfDigit hb) (isDigit_charOfDigit hk10)
  simp only [luhn_algorithm, hstrip, hpy, Bool.true_and]
  have hlen : ((bs.map charOfDigit) ++ [charOfDigit k]).length = bs.length + 1 := by
    simp
  have hmv : ((bs.map charOfDigit) ++ [charOfDigit k]).map digitVal = bs ++ [k] := by
    rw [List.map_append, hmapval]
    simp [digitVal_charOfDigit hk10]
  rw [hlen, hmv, luhnTotalGo_append]
  have hcond : ¬((0 + bs.length) % 2 = (bs.length + 1) % 2) := by omega
  rw [if_neg hcond]
  have hgo : luhnTotalGo (bs.length + 1) 0 bs = s := by
    have h := parSum_reverse bs true
    simpa using h.symm
  rw [hgo]
  have hmod : (s + k) % 10 = 0 := by rw [hkdef]; omega
  simp [hmod]

/-- Specification of the digit-reinsertion loop: when the new digit string
has exactly as many characters as the original has digits (and consists of
digits), the loop succeeds and produces a string of the original's length,
whose digit subsequence is the new string, whose characters are digits or
copied from the original, and which agrees with the original on the
digit-ness of every position and on every non-digit character. -/
theorem reinsert_spec : ∀ (cs ds : List Char),
    (cs.filter Char.isDigit).length = ds.length →
    ds.all Char.isDigit = true →
    ∃ r, reinsertDigits cs ds = some r ∧
      r.length = cs.length ∧
      r.filter Char.isDigit = ds ∧
      (∀ p ∈ r.zip cs, p.1.isDigit = p.2.isDigit ∧ (p.2.isDigit = false → p.1 = p.2)) ∧
      (∀ c ∈ r, c.isDigit = true ∨ c ∈ cs) := by
  intro cs
  induction cs with
  | nil =>
    intro ds hlen _
    have hds : ds = [] := by
      have := hlen.symm
      simpa [List.length_eq_zero] using this
    subst hds
    exact ⟨[], rfl, rfl, rfl, by simp, by simp⟩
  | cons c cs ih =>
    intro ds hlen hall
    by_cases hc : c.isDigit = true
    · rw [List.filter_cons_of_pos hc] at hlen
      cases ds with
      | nil => simp at hlen
      | cons d ds' =>
        simp only [List.length_cons, Nat.add_right_cancel_iff] at hlen
        simp only [List.all_cons, Bool.and_eq_true] at hall
        obtain ⟨r', h1, h2, h3, h4, h5⟩ := ih ds' hlen hall.2
        refine ⟨d :: r', ?_, ?_, ?_, ?_, ?_⟩
        · simp [reinsertDigits, hc, h1]
        · simp [h2]
        · rw [List.filter_cons_of_pos hall.1, h3]
        · intro p hp
          rcases List.mem_cons.mp (by simpa [List.zip_cons_cons] using hp) with hph | hpt
          · subst hph
            exact ⟨by rw [hall.1, hc], fun hcf => absurd hc (by rw [hcf]; simp)⟩
          · exact h4 p hpt
        · intro x hx
          rcases List.mem_cons.mp hx with rfl | hx'
          · exact Or.inl hall.1
          · rcases h5 x hx' with hxd | hxm
            · exact Or.inl hxd
            · exact Or.inr (List.mem_cons_of_mem _ hxm)
    · rw [List.filter_cons_of_neg (by simpa using hc)] at hlen
      obtain ⟨r', h1, h2, h3, h4, h5⟩ := ih ds hlen hall
      refine ⟨c :: r', ?_, ?_, ?_, ?_, ?_⟩
      · simp [reinsertDigits, hc, h1]
      · simp [h2]
      · rw [List.filter_cons_of_neg (by simpa using hc), h3]
      · intro p hp
        rcases List.mem_cons.mp (by simpa [List.zip_cons_cons] using hp) with hph | hpt
        · subst hph
          exact ⟨rfl, fun _ => rfl⟩
        · exact h4 p hpt
      · intro x hx
        rcases List.mem_cons.mp hx with rfl | hx'
        · exact Or.inr (List.mem_cons_self _ _)
        · rcases h5 x hx' with hxd | hxm
          · exact Or.inl hxd
          · exact Or.inr (List.mem_cons_of_mem _ hxm)

theorem stripSep_eq_filter :
    ∀ s : List Char, (∀ c ∈ s, c.isDigit = true ∨ c = ' ' ∨ c = '-') →
      stripSep s = s.filter Char.isDigit
  | [], _ => rfl
  | c :: cs, h => by
    have hrest := stripSep_eq_filter cs fun x hx => h x (List.mem_cons_of_mem _ hx)
    rcases h c (List.mem_cons_self _ _) with hd | rfl | rfl
    · rw [stripSep, List.filter_cons_of_pos (by simpa using sep_false_of_isDigit hd),
        List.filter_cons_of_pos hd]
      rw [stripSep] at hrest
      rw [hrest]
    · rw [stripSep, List.filter_cons_of_neg (by simp), List.filter_cons_of_neg (by simp)]
      rw [stripSep] at hrest
      rw [hrest]
    · rw [stripSep, List.filter_cons_of_neg (by simp), List.filter_cons_of_neg (by simp)]
      rw [stripSep] at hrest
      rw [hrest]

/-- Reduction of `anonymize_card` to the reinsertion loop's output on the
valid-length path. -/
theorem anonymize_card_eq (card : List Char) (rnd : List Nat) (r : List Char)
    (hn : 13 ≤ (card.filter Char.isDigit).length)
    (hm : (card.filter Char.isDigit).length ≤ 19)
    (hr : reinsertDigits card
      (((rnd.take ((card.filter Char.isDigit).length - 1)).map charOfDigit)
        ++ [charOfDigit (luhn_checksum
          ((rnd.take ((card.filter Char.isDigit).length - 1)).map charOfDigit))])
      = some r) :
    anonymize_card card rnd = r := by
  simp only [anonymize_card]
  rw [if_neg (by simp [hn, hm])]
  rw [hr]

/-- C2 counterexample: the input `"1111111111111a"` has 13 digits (so the
claim's hypothesis holds), yet for the all-zero digit draw the output
`"0000000000000a"` fails the Luhn validator, because the preserved non-digit
character `'a'` is not one of the separators the validator strips. -/
theorem c2_card_counterexample :
    13 ≤ (("1111111111111a".toList).filter Char.isDigit).length ∧
    (("1111111111111a".toList).filter Char.isDigit).length ≤ 19 ∧
    (∀ d ∈ ([0, 0, 0, 0, 0, 0, 0, 0, 0, 0, 0, 0] : List Nat), d < 10) ∧
    luhn_algorithm (anonymize_card ("1111111111111a".toList)
      [0, 0, 0, 0, 0, 0, 0, 0, 0, 0, 0, 0]) = false := by
  decide

/-- C2 (amended): for every input whose digit count is between 13 and 19 and
whose non-digit characters are spaces or hyphens (the only separators the
card pattern admits and the Luhn validator strips), for every realization of
the random digit draws, the output of `anonymize_card` passes the Luhn
validator, has the same character count as the input, and agrees with the
input on the digit-ness of every position and on every non-digit character. -/
theorem c2_card_amended (card : List Char) (rnd : List Nat)
    (hsep : ∀ c ∈ card, c.isDigit = true ∨ c = ' ' ∨ c = '-')
    (hn : 13 ≤ (card.filter Char.isDigit).length)
    (hm : (card.filter Char.isDigit).length ≤ 19)
    (hrl : (card.filter Char.isDigit).length - 1 ≤ rnd.length)
    (hb : ∀ d ∈ rnd, d < 10) :
    luhn_algorithm (anonymize_card card rnd) = true ∧
    (anonymize_card card rnd).length = card.length ∧
    (∀ p ∈ (anonymize_card card rnd).zip card,
      p.1.isDigit = p.2.isDigit ∧ (p.2.isDigit = false → p.1 = p.2)) := by
  have hbs : ∀ d ∈ rnd.take ((card.filter Char.isDigit).length - 1), d < 10 :=
    fun d hd => hb d (List.take_subset _ _ hd)
  have hbsl : (rnd.take ((card.filter Char.isDigit).length - 1)).length
      = (card.filter Char.isDigit).length - 1 := by
    rw [List.length_take]; omega
  set bs := rnd.take ((card.filter Char.isDigit).length - 1) with hbsdef
  set nd := (bs.map charOfDigit) ++ [charOfDigit (luhn_checksum (bs.map charOfDigit))]
    with hnddef
  have hndall : nd.all Char.isDigit = true := by
    have hk : luhn_checksum (bs.map charOfDigit) < 10 := Nat.mod_lt _ (by omega)
    simp [hnddef, List.all_append, all_digits_map_charOfDigit hbs,
      isDigit_charOfDigit hk]
  have hndlen : nd.length = (card.filter Char.isDigit).length := by
    simp only [hnddef, List.length_append, List.length_map, List.length_singleton, hbsl]
    omega
  obtain ⟨r, h1, h2, h3, h4, h5⟩ := reinsert_spec card nd hndlen.symm hndall
  have hres : anonymize_card card rnd = r := anonymize_card_eq card rnd r hn hm h1
  have hluhn : luhn_algorithm r = true := by
    have hchars : ∀ c ∈ r, c.isDigit = true ∨ c = ' ' ∨ c = '-' := by
      intro c hc
      rcases h5 c hc with hcd | hcm
      · exact Or.inl hcd
      · exact hsep c hcm
    have hstripR : stripSep r = nd := by
      rw [stripSep_eq_filter r hchars, h3]
    have hstripND : stripSep nd = nd := stripSep_all_digits hndall
    have hcore : luhn_algorithm nd = true := luhn_card_core bs hbs
    calc luhn_algorithm r
        = luhn_algorithm nd := by
          simp only [luhn_algorithm, hstripR, hstripND]
      _ = true := hcore
  rw [hres]
  exact ⟨hluhn, h2, h4⟩

/-- Witness for C2 (amended) at the repository's example card number. -/
theorem c2_card_amended_witness :
    luhn_algorithm (anonymize_card ("1558 5701 8528 1280".toList)
      [1, 2, 3, 4, 5, 6, 7, 8, 9, 0, 1, 2, 3, 4, 5]) = true :=
  (c2_card_amended ("1558 5701 8528 1280".toList)
    [1, 2, 3, 4, 5, 6, 7, 8, 9, 0, 1, 2, 3, 4, 5]
    (by decide) (by decide) (by decide) (by decide) (by decide)).1

/-! ### C9 -/

theorem splitDot_no_dot : ∀ s : List Char, '.' ∉ s → splitDot s = [s]
  | [], _ => rfl
  | c :: rest, h => by
    have hc : ¬(c = '.') := fun e => h (e ▸ List.mem_cons_self c rest)
    have hr : '.' ∉ rest := fun hm => h (List.mem_cons_of_mem _ hm)
    simp only [splitDot, if_neg hc, splitDot_no_dot rest hr]

/-- C9: a run of the masking character `'#'` of any length satisfies none of
the eight identifier patterns, so re-running the detector over mask-mode
output can never match inside a masked region. -/
theorem c9_mask_no_pattern (n : Nat) :
    cardMatch (maskReplacement n) = false ∧
    ogrnipMatch (maskReplacement n) = false ∧
    ipMatch (maskReplacement n) = false ∧
    emailMatch (maskReplacement n) = false ∧
    birthCertMatch (maskReplacement n) = false ∧
    kladrMatch (maskReplacement n) = false ∧
    innMatch (maskReplacement n) = false ∧
    passportMatch (maskReplacement n) = false := by
  have hnd : ('#').isDigit = false := by decide
  have hrc : romanChar '#' = false := by decide
  refine ⟨?_, ?_, ?_, ?_, ?_, ?_, ?_, ?_⟩
  · cases n with
    | zero => decide
    | succ m => simp [cardMatch, maskReplacement, List.replicate_succ, hnd]
  · cases n with
    | zero => decide
    | succ m => simp [ogrnipMatch, maskReplacement, List.replicate_succ, hnd]
  · have h1 : ('.' : Char) ∉ List.replicate n '#' := fun h =>
      absurd (List.eq_of_mem_replicate h) (by decide)
    have hsd : splitDot (List.replicate n '#') = [List.replicate n '#'] :=
      splitDot_no_dot _ h1
    simp [ipMatch, maskReplacement, hsd]
  · have h1 : ('@' : Char) ∉ List.replicate n '#' := fun h =>
      absurd (List.eq_of_mem_replicate h) (by decide)
    simp [emailMatch, maskReplacement, h1]
  · cases n with
    | zero => decide
    | succ m =>
      simp [birthCertMatch, birthCertShape, maskReplacement, List.replicate_succ, hrc]
  · cases n with
    | zero => decide
    | succ m => simp [kladrMatch, maskReplacement, List.replicate_succ, eatDigits, hnd]
  · cases n with
    | zero => decide
    | succ m => simp [innMatch, maskReplacement, List.replicate_succ, hnd]
  · cases n with
    | zero => decide
    | succ m => simp [passportMatch, maskReplacement, List.replicate_succ, eatDigits, hnd]

end Nerpda
